import Mathlib

/-!
# Verification of the pollcatch event log, calibration, and correlator

A shallow embedding of the pollcatch runtime library (`src/writer.rs`,
`src/calibration.rs`, `src/lib.rs`) and its offline decoder
(`decoder/src/pr_parser.rs`, `decoder/src/main.rs`).

Machine integers are modelled as `Nat` with explicit `% 2 ^ w` at the points
where the Rust code truncates (`as u64` casts, overflowing `+`); `u64`
saturating subtraction coincides with truncated `Nat` subtraction. Byte
streams are `List Nat` of little-endian bytes; the `Seek`-able reader is a
buffer together with a cursor position. Fallible parsing returns `Except`,
and the end-of-input condition that `read_event` converts into a clean `None`
is modelled with `Option` results on the primitive reads.
-/

namespace Pollcatch

/-- The little-endian byte encoding of a 32-bit value, as written by
`write_u32::<LittleEndian>` in `src/writer.rs`. -/
def u32le (v : Nat) : List Nat :=
  [v % 256, v / 256 % 256, v / 256 ^ 2 % 256, v / 256 ^ 3 % 256]

/-- The little-endian byte encoding of a 64-bit value, as written by
`write_u64::<LittleEndian>` in `src/writer.rs`. -/
def u64le (v : Nat) : List Nat :=
  [v % 256, v / 256 % 256, v / 256 ^ 2 % 256, v / 256 ^ 3 % 256,
   v / 256 ^ 4 % 256, v / 256 ^ 5 % 256, v / 256 ^ 6 % 256, v / 256 ^ 7 % 256]

/-- `Event` from `src/writer.rs`: the events the runtime library sends to the
writer thread. -/
inductive Event where
  | poll (start end_ clock_end tid : Nat)
  | calibrateTscToMonotonic (src_epoch ref_epoch mul shift : Nat)
deriving DecidableEq, Repr

/-- `write_event` from `src/writer.rs` (lines 26-60): the bytes appended to
the output for one event.  The size field is written as the literal sum
`4 + 4 + 8 + 8 + 8 + 4` in the source, for both kinds. -/
def write_event : Event → List Nat
  | .poll start end_ clock_end tid =>
      u32le (4 + 4 + 8 + 8 + 8 + 4) ++ u32le 0 ++
        u64le start ++ u64le end_ ++ u64le clock_end ++ u32le tid
  | .calibrateTscToMonotonic src_epoch ref_epoch mul shift =>
      u32le (4 + 4 + 8 + 8 + 8 + 4) ++ u32le 1 ++
        u64le src_epoch ++ u64le ref_epoch ++ u64le mul ++ u32le shift

end Pollcatch

namespace Decoder

/-- The state of the decoder's `Read + Seek` input: the underlying bytes and
the cursor position (a `std::io::Cursor` / buffered file reader).  Seeking may
move the position past the end of the buffer. -/
structure RState where
  buf : List Nat
  pos : Nat
deriving DecidableEq, Repr

/-- Little-endian value of a list of bytes. -/
def leNat (bs : List Nat) : Nat := bs.foldr (fun b acc => b + 256 * acc) 0

/-- Read exactly `n` bytes from the cursor, advancing it; `none` models the
`UnexpectedEof` error that `read_exact` reports when fewer than `n` bytes
remain. -/
def readBytes (s : RState) (n : Nat) : Option (List Nat × RState) :=
  if s.pos + n ≤ s.buf.length then
    some ((s.buf.drop s.pos).take n, ⟨s.buf, s.pos + n⟩)
  else none

/-- `read_u32::<LittleEndian>` on the cursor. -/
def readU32 (s : RState) : Option (Nat × RState) :=
  (readBytes s 4).map fun p => (leNat p.1, p.2)

/-- `read_u64::<LittleEndian>` on the cursor. -/
def readU64 (s : RState) : Option (Nat × RState) :=
  (readBytes s 8).map fun p => (leNat p.1, p.2)

/-- `seek_relative` with a non-negative offset: the position moves forward,
possibly past the end of the buffer. -/
def seekRelative (s : RState) (n : Nat) : RState := ⟨s.buf, s.pos + n⟩

/-- `ReadEventError` from `decoder/src/pr_parser.rs`. -/
inductive ReadEventError where
  | readError
  | sizeTooSmall
deriving DecidableEq, Repr

/-- `CalibrationData` from `decoder/src/pr_parser.rs`. -/
structure CalibrationData where
  src_epoch : Nat
  ref_epoch : Nat
  mul : Nat
  shift : Nat
deriving DecidableEq, Repr

/-- `Event` from `decoder/src/pr_parser.rs`. -/
inductive Event where
  | poll (start end_ clock_end tid : Nat)
  | calibrateTscToMonotonic (data : CalibrationData)
deriving DecidableEq, Repr

/-- `PossiblyUnknownEvent` from `decoder/src/pr_parser.rs`. -/
inductive PossiblyUnknownEvent where
  | event (e : Event)
  | unknownEvent (kind : Nat)
deriving DecidableEq, Repr

/-- `read_event` from `decoder/src/pr_parser.rs` (lines 65-123).  An
`UnexpectedEof` on the very first size read yields a clean `Ok(None)`; an EOF
on any later read is a fatal `Read` error.  `poll_size` starts at `4 + 4` and
becomes `4 + 4 + 8 + 8 + 8 + 4` for the two known kinds; the final
`seek_relative (size - poll_size)` skips any extra payload bytes. -/
def read_event (s0 : RState) :
    Except ReadEventError (Option (PossiblyUnknownEvent × RState)) :=
  match readU32 s0 with
  | none => .ok none
  | some (size, s1) =>
    if size < 4 + 4 then .error .sizeTooSmall
    else
      match readU32 s1 with
      | none => .error .readError
      | some (kind, s2) =>
        match kind with
        | 0 =>
          if size < 4 + 4 + 8 + 8 + 8 + 4 then .error .sizeTooSmall
          else
            match readU64 s2 with
            | none => .error .readError
            | some (start, s3) =>
              match readU64 s3 with
              | none => .error .readError
              | some (end_, s4) =>
                match readU64 s4 with
                | none => .error .readError
                | some (clock_end, s5) =>
                  match readU32 s5 with
                  | none => .error .readError
                  | some (tid, s6) =>
                    .ok (some (.event (.poll start end_ clock_end tid),
                      seekRelative s6 (size - (4 + 4 + 8 + 8 + 8 + 4))))
        | 1 =>
          if size < 4 + 4 + 8 + 8 + 8 + 4 then .error .sizeTooSmall
          else
            match readU64 s2 with
            | none => .error .readError
            | some (src_epoch, s3) =>
              match readU64 s3 with
              | none => .error .readError
              | some (ref_epoch, s4) =>
                match readU64 s4 with
                | none => .error .readError
                | some (mul, s5) =>
                  match readU32 s5 with
                  | none => .error .readError
                  | some (shift, s6) =>
                    .ok (some (.event (.calibrateTscToMonotonic
                        ⟨src_epoch, ref_epoch, mul, shift⟩),
                      seekRelative s6 (size - (4 + 4 + 8 + 8 + 8 + 4))))
        | k => .ok (some (.unknownEvent k, seekRelative s2 (size - (4 + 4))))

/-- `mul_div_po2_u64` from `decoder/src/pr_parser.rs` (lines 43-51): widen to
`u128` (exact, since both factors are below `2 ^ 64`), multiply, shift right
by `denom` (release-mode Rust masks the shift amount to the operand width,
hence `% 128`), and truncate back to `u64`. -/
def mul_div_po2_u64 (value numer denom : Nat) : Nat :=
  value * numer / 2 ^ (denom % 128) % 2 ^ 64

/-- `CalibrationData::scale_src_to_ref` from `decoder/src/pr_parser.rs`
(lines 54-58): saturating subtraction of the source epoch, fixed-point scale,
then `u64` addition of the reference epoch (wrapping, hence `% 2 ^ 64`). -/
def CalibrationData.scale_src_to_ref (c : CalibrationData) (src_raw : Nat) : Nat :=
  let delta := src_raw - c.src_epoch
  let scaled := mul_div_po2_u64 delta c.mul c.shift
  (scaled + c.ref_epoch) % 2 ^ 64

/-- `CalibrationData::scale_src_duration_to_ref` from
`decoder/src/pr_parser.rs` (lines 60-62). -/
def CalibrationData.scale_src_duration_to_ref (c : CalibrationData) (delta : Nat) : Nat :=
  mul_div_po2_u64 delta c.mul c.shift

/-- `PollEventKey` from `decoder/src/main.rs` (lines 40-45). -/
structure PollEventKey where
  tid : Nat
  clock_start : Nat
  duration : Nat
deriving DecidableEq, Repr

/-- The derived `Ord` of `PollEventKey`: lexicographic comparison of
`(tid, clock_start, duration)`.  `Vec::sort` sorts ascending by this order. -/
def PollEventKey.keyLe (a b : PollEventKey) : Bool :=
  a.tid < b.tid ||
    (a.tid == b.tid &&
      (a.clock_start < b.clock_start ||
        (a.clock_start == b.clock_start && a.duration ≤ b.duration)))

/-- `ClockSource` from `decoder/src/main.rs` (lines 47-51). -/
inductive ClockSource where
  | tsc
  | monotonic
deriving DecidableEq, Repr

/-- The body of the `while let` loop of `make_pr_map` in `decoder/src/main.rs`
(lines 54-94), over the sequence of events that `read_event` yields, carrying
the latest calibration seen so far.  A `Poll` before any calibration is
dropped (with a warning) in the monotonic domain. -/
def make_pr_map_go (clock_source : ClockSource) :
    List PossiblyUnknownEvent → Option CalibrationData → List PollEventKey
  | [], _ => []
  | .unknownEvent _ :: rest, calibration => make_pr_map_go clock_source rest calibration
  | .event (.calibrateTscToMonotonic data) :: rest, _ =>
      make_pr_map_go clock_source rest (some data)
  | .event (.poll start end_ clock_end tid) :: rest, calibration =>
    match clock_source with
    | .tsc =>
        ⟨tid, start, end_ - start⟩ :: make_pr_map_go clock_source rest calibration
    | .monotonic =>
      match calibration with
      | none => make_pr_map_go clock_source rest none
      | some c =>
        let poll_duration := end_ - start
        let duration := c.scale_src_duration_to_ref poll_duration
        let clock_start := clock_end - duration
        ⟨tid, clock_start, duration⟩ :: make_pr_map_go clock_source rest (some c)

/-- `make_pr_map` from `decoder/src/main.rs` (lines 54-94): build the entry
list from the event stream, then `pr_map.sort()` under the derived order. -/
def make_pr_map (events : List PossiblyUnknownEvent) (clock_source : ClockSource) :
    List PollEventKey :=
  (make_pr_map_go clock_source events none).mergeSort PollEventKey.keyLe

/-- `slice::partition_point`: for a predicate that is true on a prefix and
false on the rest (which the sorted-input contract guarantees), the index of
the first element of the second partition. -/
def partitionPoint (pred : PollEventKey → Bool) (l : List PollEventKey) : Nat :=
  (l.takeWhile pred).length

/-- `find_delta_t_from_clock` from `decoder/src/main.rs` (lines 209-226).
The sample's `tid` and `start_time_ticks` arrive as `i64`; the `try_into`
conversions to `u32` and `u64` fail (returning `None`) outside
`0 ≤ tid < 2 ^ 32` and `0 ≤ clock_start`.  The result feeds `process_sample`,
which leaves `delta_t = 0` on `None`. -/
def find_delta_t_from_clock (pr_map : List PollEventKey) (tid clock_start : Int) :
    Option Nat :=
  if 0 ≤ tid ∧ tid < 2 ^ 32 ∧ 0 ≤ clock_start then
    let t : Nat := tid.toNat
    let cs : Nat := clock_start.toNat
    let pp := partitionPoint
      (fun x => x.tid < t || (t == x.tid && x.clock_start ≤ cs)) pr_map
    if pp = 0 then none
    else
      let bound := pr_map.getD (pp - 1) ⟨0, 0, 0⟩
      if t == bound.tid && bound.clock_start < cs &&
          cs - bound.clock_start < bound.duration then
        some (cs - bound.clock_start)
      else none
  else none

/-- `StackFrame` from `decoder/src/main.rs` (lines 177-180); strings are
modelled as lists of characters. -/
structure StackFrame where
  class_name : Option (List Char)
  name : Option (List Char)
deriving DecidableEq, Repr

/-- `Sample` from `decoder/src/main.rs` (lines 170-175).  `delta_t` and
`start_time` are durations in their integral units. -/
structure Sample where
  delta_t : Nat
  start_time : Nat
  thread_id : Int
  frames : List StackFrame
deriving DecidableEq, Repr

/-- `str::contains` on character lists: some contiguous run of `hay` equals
`needle`. -/
def containsSub (needle : List Char) : List Char → Bool
  | [] => needle.isEmpty
  | c :: rest => needle.isPrefixOf (c :: rest) || containsSub needle rest

/-- The frame-name marker that `print_samples` filters on
(`decoder/src/main.rs` line 137). -/
def parkNeedle : List Char :=
  "<tokio::runtime::scheduler::multi_thread::worker::Context>::park_timeout".toList

/-- The sleep-sample test of `print_samples` (`decoder/src/main.rs` lines
134-140): some frame has a name containing `parkNeedle`. -/
def isSleepSample (s : Sample) : Bool :=
  s.frames.any fun f =>
    match f.name with
    | some n => containsSub parkNeedle n
    | none => false

/-- `print_samples` from `decoder/src/main.rs` (lines 132-168), modelled as
the subsequence of samples that reach the `println!` calls: samples whose
stack contains the `parkNeedle` marker are skipped with `continue`. -/
def print_samples (samples : List Sample) : List Sample :=
  samples.filter fun s => !isSleepSample s

end Decoder

namespace Pollcatch

/-- `mul_div_po2_u64` from `src/calibration.rs` (lines 14-22); textually the
same routine as the decoder's copy: widen to `u128` (exact), multiply, shift
right by `denom` (release-mode Rust masks the shift amount, hence `% 128`),
truncate to `u64`. -/
def mul_div_po2_u64 (value numer denom : Nat) : Nat :=
  value * numer / 2 ^ (denom % 128) % 2 ^ 64

/-- `Calibration` from `src/calibration.rs` (lines 24-30). -/
structure Calibration where
  ref_time : Nat
  src_time : Nat
  scale_factor : Nat
  scale_shift : Nat
deriving DecidableEq, Repr

/-- `Calibration::new` (= `Default`): the identity mapping. -/
def Calibration.new : Calibration :=
  { ref_time := 0, src_time := 0, scale_factor := 1, scale_shift := 0 }

/-- `Calibration::scale_src_to_ref` from `src/calibration.rs` (lines 47-51):
saturating subtraction of `src_time`, fixed-point scale, then `u64` addition
of `ref_time` (wrapping, hence `% 2 ^ 64`). -/
def Calibration.scale_src_to_ref (c : Calibration) (src_raw : Nat) : Nat :=
  let delta := src_raw - c.src_time
  let scaled := mul_div_po2_u64 delta c.scale_factor c.scale_shift
  (scaled + c.ref_time) % 2 ^ 64

/-- Modelled from the spec: `src/stats.rs` (the `Variance` estimator used by
`calibrate`) is not part of the provided sources.  Following §4.1 of the
specification it is a running (mean, variance) estimator over the added error
samples; the source's `f64` arithmetic is modelled by exact rationals, and
the square-root comparisons of the convergence check are expressed in
squared, sqrt-free form. -/
structure Variance where
  vals : List ℚ

/-- Modelled from the spec: `Variance::default()`, no samples yet. -/
def Variance.default : Variance := ⟨[]⟩

/-- Modelled from the spec: accumulate one error sample. -/
def Variance.add (v : Variance) (x : ℚ) : Variance := ⟨x :: v.vals⟩

/-- Modelled from the spec: the number of accumulated samples. -/
def Variance.samples (v : Variance) : Nat := v.vals.length

/-- Modelled from the spec: the running mean. -/
def Variance.mean (v : Variance) : ℚ := v.vals.sum / (v.samples : ℚ)

/-- Modelled from the spec: the squared standard error of the mean,
`variance / samples` with the unbiased sample variance. -/
def Variance.stderrSq (v : Variance) : ℚ :=
  ((v.vals.map fun x => (x - v.mean) ^ 2).sum / ((v.samples : ℚ) - 1)) / (v.samples : ℚ)

/-- Modelled from the spec: `has_significant_result`, at least two samples so
a variance exists. -/
def Variance.hasSignificantResult (v : Variance) : Bool :=
  decide (2 ≤ v.samples)

/-- Modelled from the spec (§4.1 step 4): `samples > 500`,
`|mean| + stderr < 10` and `mean_error / |mean| ≤ 1`, with the square roots
eliminated by squaring. -/
def Variance.converged (v : Variance) : Bool :=
  decide (500 < v.samples) &&
    (decide (|v.mean| < 10) && decide (v.stderrSq < (10 - |v.mean|) ^ 2)) &&
    decide (v.stderrSq ≤ v.mean ^ 2)

/-- `u64::checked_next_power_of_two`: the smallest power of two that is
greater than or equal to the value (1 for 0), or `none` when that power does
not fit in a `u64`. -/
def checked_next_power_of_two (n : Nat) : Option Nat :=
  if n ≤ 2 ^ 63 then some (2 ^ Nat.clog 2 n) else none

/-- `Calibration::adjust_cal_ratio` from `src/calibration.rs` (lines
103-130), given the two freshly read clock values `ref_end` and `src_end`:
wrapping deltas against the epochs, round the source delta up to a power of
two (`2 ^ 63` on overflow), set `scale_shift` to its trailing-zero count and
`scale_factor` to `ref_d` scaled by the rounding ratio.  The source computes
`ref_d as f64 * (src_d_po2 as f64 / src_d as f64)` in floating point and
truncates; this is modelled by the exact integer quotient (0 when
`src_d = 0`, where the source's NaN converts to 0). -/
def Calibration.adjust_cal_ratio (c : Calibration) (ref_end src_end : Nat) : Calibration :=
  let ref_d := (ref_end + 2 ^ 64 - c.ref_time) % 2 ^ 64
  let src_d := (src_end + 2 ^ 64 - c.src_time) % 2 ^ 64
  let src_d_po2 := (checked_next_power_of_two src_d).getD (2 ^ 63)
  let scale_factor := if src_d = 0 then 0 else ref_d * src_d_po2 / src_d
  { c with scale_factor := scale_factor, scale_shift := src_d_po2.log2 }

/-- The busy-wait loop of `calibrate` (`src/calibration.rs` lines 63-67):
`while last < target { last = reference(); }`.  The impure `reference`
closure is modelled as a stream indexed by a call counter `kr`; `fuel` bounds
the number of steps, `none` meaning the loop has not finished within the
fuel. -/
def busyWait (reference : Nat → Nat) (kr last target : Nat) : Nat → Option (Nat × Nat)
  | 0 => none
  | fuel + 1 =>
    if last < target then busyWait reference (kr + 1) (reference kr) target fuel
    else some (kr, last)

/-- One `loop` iteration chain of `Calibration::calibrate`
(`src/calibration.rs` lines 61-100): busy-wait 1 µs of reference time, break
at the deadline, adjust the ratio, sample the scaling error into the
variance estimator, and break early once converged.  `kr` and `ks` count the
calls made so far to `reference` and `source`; `none` means the fuel ran out
before the loop terminated. -/
def calibrateLoop (reference source : Nat → Nat) (deadline : Nat) :
    Calibration → Variance → Nat → Nat → Nat → Option Calibration
  | _, _, _, _, 0 => none
  | c, variance, kr, ks, fuel + 1 =>
    let first := reference kr
    match busyWait reference (kr + 1) first (first + 1000) fuel with
    | none => none
    | some (kr, last) =>
      if deadline ≤ last then some c
      else
        let ref_end := reference kr
        let src_end := source ks
        let c := c.adjust_cal_ratio ref_end src_end
        let r_time := reference (kr + 1)
        let s_raw := source (ks + 1)
        let s_time := c.scale_src_to_ref s_raw
        let variance := variance.add ((s_time : ℚ) - (r_time : ℚ))
        if variance.hasSignificantResult && variance.converged then some c
        else calibrateLoop reference source deadline c variance (kr + 2) (ks + 2) fuel

/-- `Calibration::calibrate` from `src/calibration.rs` (lines 53-101):
compute the deadline `reference() + 200ms`, reset the timebases
(`ref_time = reference(); src_time = source()`), then run the loop.  The
result is the final calibration, or `none` when the loop does not terminate
within `fuel` steps. -/
def Calibration.calibrate (c0 : Calibration) (reference source : Nat → Nat)
    (fuel : Nat) : Option Calibration :=
  let deadline := reference 0 + 200 * 1000 * 1000
  let c := { c0 with ref_time := reference 1, src_time := source 0 }
  calibrateLoop reference source deadline c Variance.default 2 1 fuel

/-- The mutable process/thread state that the probe code in `src/lib.rs`
touches: whether the pthread key has been published
(`TIMESTAMP_PTHREAD_KEY_ASYNC_SIGNAL_SAFE ≥ 0`), the per-thread slot value,
the writer channel (`none` while `PERFORMANCE_WRITER` is uninitialised,
otherwise the list of events sent so far), the streams of upcoming
`tsc::now()` and `nanotime()` readings, and the current thread id. -/
structure ProbeState where
  key_init : Bool
  slot : Nat
  writer : Option (List Event)
  tsc_vals : List Nat
  clock_vals : List Nat
  tid : Nat
deriving DecidableEq, Repr

/-- `read_timestamp_pthread_key` from `src/lib.rs` (lines 118-128): 0 when
the key is not initialised. -/
def read_timestamp_pthread_key (st : ProbeState) : Nat :=
  if st.key_init then st.slot else 0

/-- `write_timestamp_pthread_key` from `src/lib.rs` (lines 131-139): no-op
when the key is not initialised. -/
def write_timestamp_pthread_key (time : Nat) (st : ProbeState) : ProbeState :=
  if st.key_init then { st with slot := time } else st

/-- `tsc::now()`: pop the next source-clock reading. -/
def tscNow (st : ProbeState) : Nat × ProbeState :=
  (st.tsc_vals.headD 0, { st with tsc_vals := st.tsc_vals.tail })

/-- `nanotime()` from `src/lib.rs` (lines 148-158): pop the next
reference-clock reading (0 models a `clock_gettime` failure). -/
def nanotimeCall (st : ProbeState) : Nat × ProbeState :=
  (st.clock_vals.headD 0, { st with clock_vals := st.clock_vals.tail })

/-- `write_timestamp` from `src/lib.rs` (lines 160-170): when the writer is
running, read `tid`, `nanotime()` and `tsc::now()` and send a Poll event on
the channel (a successful `send` appends it); no-op when the writer was
never started. -/
def write_timestamp (before : Nat) (st : ProbeState) : ProbeState :=
  match st.writer with
  | none => st
  | some sent =>
    let tid := st.tid
    let (clock_end, st) := nanotimeCall st
    let (end_, st) := tscNow st
    { st with writer := some (sent ++ [.poll before end_ clock_end tid]) }

/-- `timestamping` from `src/lib.rs` (lines 172-180): read the source clock
into `before`, zero the per-thread slot, run the body, and emit a Poll event
exactly when the slot then reads 1. -/
def timestamping {α : Type} (body : ProbeState → ProbeState × α) (st : ProbeState) :
    ProbeState × α :=
  let (before, st) := tscNow st
  let st := write_timestamp_pthread_key 0 st
  let p := body st
  let st := if read_timestamp_pthread_key p.1 = 1 then write_timestamp before p.1 else p.1
  (st, p.2)

end Pollcatch

namespace Decoder

/-- Lexicographic order on the `(tid, clock_start)` components of an index
entry, the order the specification says both indices are sorted by. -/
def lexLe (a b : PollEventKey) : Prop :=
  a.tid < b.tid ∨ (a.tid = b.tid ∧ a.clock_start ≤ b.clock_start)

instance (a b : PollEventKey) : Decidable (lexLe a b) := by
  unfold lexLe; infer_instance

/-- The predicate of the claimed join search: entry key lexicographically at
most the sample key `(tid, t)`. -/
def keyAtMost (I : PollEventKey) (tid t : Nat) : Prop :=
  I.tid < tid ∨ (I.tid = tid ∧ I.clock_start ≤ t)

instance (I : PollEventKey) (tid t : Nat) : Decidable (keyAtMost I tid t) := by
  unfold keyAtMost; infer_instance

/-- The "inside" predicate of the specification's data model (§3): a sample
at `(tid, t)` lies inside interval `I`, with strict inequality at the start
boundary. -/
def insideInterval (I : PollEventKey) (tid t : Nat) : Prop :=
  I.tid = tid ∧ I.clock_start < t ∧ t - I.clock_start < I.duration

instance (I : PollEventKey) (tid t : Nat) : Decidable (insideInterval I tid t) := by
  unfold insideInterval; infer_instance

/-- Specification of the source-domain index before sorting (§4.4): one entry
`{tid, clock_start := start, duration := end - start}` per Poll event. -/
def srcEntries (events : List PossiblyUnknownEvent) : List PollEventKey :=
  events.filterMap fun e =>
    match e with
    | .event (.poll start end_ _ tid) => some ⟨tid, start, end_ - start⟩
    | _ => none

/-- The most recent calibration in `events`, starting from `c0`. -/
def latestCalibration (c0 : Option CalibrationData):
    List PossiblyUnknownEvent → Option CalibrationData :=
  List.foldl
    (fun c e =>
      match e with
      | .event (.calibrateTscToMonotonic d) => some d
      | _ => c) c0

/-- The reference-domain entry the specification prescribes for a Poll under
calibration `c` (§4.4): duration `scale (end - start)` and clock start
`clock_end - scale (end - start)`. -/
def refEntry (c : CalibrationData) (start end_ clock_end tid : Nat) : PollEventKey :=
  let d := c.scale_src_duration_to_ref (end_ - start)
  ⟨tid, clock_end - d, d⟩

/-- Specification of the reference-domain index before sorting (§4.4): one
entry per Poll event, scaled with the most recent calibration preceding it in
the log (starting from `c0`); a Poll with no preceding calibration
contributes nothing. -/
def refEntriesFrom (c0 : Option CalibrationData) (events : List PossiblyUnknownEvent) :
    List PollEventKey :=
  events.enum.filterMap fun ie =>
    match ie.2 with
    | .event (.poll start end_ clock_end tid) =>
        (latestCalibration c0 (events.take ie.1)).map fun c =>
          refEntry c start end_ clock_end tid
    | _ => none

/-- Specification of the reference-domain index of a whole log: no
calibration is in effect at the start. -/
def refEntries (events : List PossiblyUnknownEvent) : List PollEventKey :=
  refEntriesFrom none events

end Decoder




/-- Claim C1, counterexample: the `total_size` field written for a Poll frame
is not `0x1C` — the first four on-disk bytes of the Poll `{start=1, end=2,
clock_end=3, tid=4}` are not `1C 00 00 00`. -/
theorem c1_cex :
    (Pollcatch.write_event (.poll 1 2 3 4)).take 4 ≠ [0x1C, 0, 0, 0] := by
  decide

/-- Claim C1, amended: writing the Poll `{start=1, end=2, clock_end=3, tid=4}`
produces bytes beginning with the little-endian `u32` total_size `0x24` (36,
the 8-byte header plus the 28-byte payload), then kind 0, then the payload
`01 .. 02 .. 03 .. 04 00 00 00`. -/
theorem c1_amended :
    Pollcatch.write_event (.poll 1 2 3 4) =
      [0x24, 0, 0, 0] ++ [0, 0, 0, 0] ++
        [1, 0, 0, 0, 0, 0, 0, 0] ++ [2, 0, 0, 0, 0, 0, 0, 0] ++
        [3, 0, 0, 0, 0, 0, 0, 0] ++ [4, 0, 0, 0] := by
  decide

/-- Claim C10: the library's `Calibration::scale_src_to_ref` and the
decoder's `CalibrationData::scale_src_to_ref` compute the same function for
every `(epoch, mul, shift)` tuple and every source value, and the two crates'
`mul_div_po2_u64` helpers are the same function. -/
theorem c10_equiv (src_epoch ref_epoch mul shift v value numer denom : Nat) :
    (Pollcatch.Calibration.mk ref_epoch src_epoch mul shift).scale_src_to_ref v =
      (Decoder.CalibrationData.mk src_epoch ref_epoch mul shift).scale_src_to_ref v ∧
    Pollcatch.mul_div_po2_u64 value numer denom = Decoder.mul_div_po2_u64 value numer denom := by
  exact ⟨rfl, rfl⟩

/-- Claim C7, counterexample: a sample whose single frame is named exactly
`park_timeout` contains the substring `park_timeout`, yet `print_samples`
prints it — the code filters on the longer tokio-specific marker only. -/
theorem c7_cex :
    (Decoder.containsSub "park_timeout".toList "park_timeout".toList = true) ∧
      Decoder.print_samples [⟨0, 0, 0, [⟨none, some "park_timeout".toList⟩]⟩] =
        [⟨0, 0, 0, [⟨none, some "park_timeout".toList⟩]⟩] := by
  constructor
  · decide
  · decide

/-- Claim C7, amended: a sample is omitted from the printed output exactly
when some frame name contains the full substring
`<tokio::runtime::scheduler::multi_thread::worker::Context>::park_timeout`;
a name containing only `park_timeout` is not filtered. -/
theorem c7_amended (samples : List Decoder.Sample) (s : Decoder.Sample) :
    s ∈ Decoder.print_samples samples ↔
      s ∈ samples ∧ Decoder.isSleepSample s = false := by
  simp [Decoder.print_samples, List.mem_filter]

/-- Claim C2: serialising a Poll or Calibration event with `write_event` and
parsing the bytes with `read_event` yields an event with exactly the written
fields, leaves the cursor at the end of the 36 written bytes, and a
subsequent read at that frame boundary returns a clean `None`. -/
theorem c2_roundtrip (start end_ clock_end tid se re mul sh : Nat)
    (h1 : start < 2 ^ 64) (h2 : end_ < 2 ^ 64) (h3 : clock_end < 2 ^ 64)
    (h4 : tid < 2 ^ 32) (h5 : se < 2 ^ 64) (h6 : re < 2 ^ 64) (h7 : mul < 2 ^ 64)
    (h8 : sh < 2 ^ 32) :
    (Decoder.read_event ⟨Pollcatch.write_event (.poll start end_ clock_end tid), 0⟩ =
        .ok (some (.event (.poll start end_ clock_end tid),
          ⟨Pollcatch.write_event (.poll start end_ clock_end tid), 36⟩)) ∧
      Decoder.read_event ⟨Pollcatch.write_event (.poll start end_ clock_end tid), 36⟩ =
        .ok none) ∧
    (Decoder.read_event ⟨Pollcatch.write_event (.calibrateTscToMonotonic se re mul sh), 0⟩ =
        .ok (some (.event (.calibrateTscToMonotonic ⟨se, re, mul, sh⟩),
          ⟨Pollcatch.write_event (.calibrateTscToMonotonic se re mul sh), 36⟩)) ∧
      Decoder.read_event ⟨Pollcatch.write_event (.calibrateTscToMonotonic se re mul sh), 36⟩ =
        .ok none) := by
  refine ⟨⟨?_, ?_⟩, ⟨?_, ?_⟩⟩ <;>
    simp [Pollcatch.write_event, Pollcatch.u32le, Pollcatch.u64le,
      Decoder.read_event, Decoder.readU32, Decoder.readU64, Decoder.readBytes,
      Decoder.leNat, Decoder.seekRelative] <;>
    omega

/-- Claim C2, witness at the concrete fields `1, 2, 3, 4` for both kinds. -/
theorem c2_roundtrip_witness :
    (Decoder.read_event ⟨Pollcatch.write_event (.poll 1 2 3 4), 0⟩ =
        .ok (some (.event (.poll 1 2 3 4),
          ⟨Pollcatch.write_event (.poll 1 2 3 4), 36⟩)) ∧
      Decoder.read_event ⟨Pollcatch.write_event (.poll 1 2 3 4), 36⟩ = .ok none) ∧
    (Decoder.read_event ⟨Pollcatch.write_event (.calibrateTscToMonotonic 1 2 3 4), 0⟩ =
        .ok (some (.event (.calibrateTscToMonotonic ⟨1, 2, 3, 4⟩),
          ⟨Pollcatch.write_event (.calibrateTscToMonotonic 1 2 3 4), 36⟩)) ∧
      Decoder.read_event ⟨Pollcatch.write_event (.calibrateTscToMonotonic 1 2 3 4), 36⟩ =
        .ok none) :=
  c2_roundtrip 1 2 3 4 1 2 3 4 (by decide) (by decide) (by decide) (by decide)
    (by decide) (by decide) (by decide) (by decide)

/-- Reading a `u32` whose four little-endian bytes sit at the cursor recovers
the value and advances the cursor by four. -/
theorem Decoder.readU32_at (buf pre rest : List Nat) (pos v : Nat)
    (hbuf : buf = pre ++ (Pollcatch.u32le v ++ rest)) (hpos : pos = pre.length)
    (h : v < 2 ^ 32) :
    Decoder.readU32 ⟨buf, pos⟩ = some (v, ⟨buf, pos + 4⟩) := by
  subst hbuf hpos
  simp [Decoder.readU32, Decoder.readBytes, Pollcatch.u32le, Decoder.leNat,
    List.drop_left, List.length_append]
  omega

/-- Claim C6: for a frame whose kind is neither 0 nor 1, if
`total_size ≥ 8` the reader returns `UnknownEvent{kind}` and advances the
position by exactly `total_size` bytes, keeping later frames aligned; if
`total_size < 8` it fails with the fatal `SizeTooSmall` error. -/
theorem c6_unknown_kind (pre post : List Nat) (size kind : Nat)
    (hsz : size < 2 ^ 32) (hku : kind < 2 ^ 32) (hk0 : kind ≠ 0) (hk1 : kind ≠ 1) :
    (8 ≤ size →
      Decoder.read_event
          ⟨pre ++ Pollcatch.u32le size ++ Pollcatch.u32le kind ++ post, pre.length⟩ =
        .ok (some (.unknownEvent kind,
          ⟨pre ++ Pollcatch.u32le size ++ Pollcatch.u32le kind ++ post,
            pre.length + size⟩))) ∧
    (size < 8 →
      Decoder.read_event
          ⟨pre ++ Pollcatch.u32le size ++ Pollcatch.u32le kind ++ post, pre.length⟩ =
        .error .sizeTooSmall) := by
  have h1 : Decoder.readU32
      ⟨pre ++ Pollcatch.u32le size ++ Pollcatch.u32le kind ++ post, pre.length⟩ =
      some (size, ⟨pre ++ Pollcatch.u32le size ++ Pollcatch.u32le kind ++ post,
        pre.length + 4⟩) :=
    Decoder.readU32_at _ pre (Pollcatch.u32le kind ++ post) _ size (by simp) rfl hsz
  have h2 : Decoder.readU32
      ⟨pre ++ Pollcatch.u32le size ++ Pollcatch.u32le kind ++ post, pre.length + 4⟩ =
      some (kind, ⟨pre ++ Pollcatch.u32le size ++ Pollcatch.u32le kind ++ post,
        pre.length + 4 + 4⟩) :=
    Decoder.readU32_at _ (pre ++ Pollcatch.u32le size) post _ kind (by simp) (by
      simp [Pollcatch.u32le]) hku
  obtain ⟨k, rfl⟩ : ∃ k, kind = k + 2 := ⟨kind - 2, by omega⟩
  constructor
  · intro h8
    unfold Decoder.read_event
    rw [h1]
    simp only [if_neg (by omega : ¬ size < 4 + 4)]
    rw [h2]
    simp only [Decoder.seekRelative]
    simp
    omega
  · intro hlt
    unfold Decoder.read_event
    rw [h1]
    simp only [if_pos (by omega : size < 4 + 4)]

/-- Claim C6, witness: the 16-byte frame with kind `0x12345678` is skipped
whole. -/
theorem c6_unknown_kind_witness :
    ((8 : Nat) ≤ 16 ∧
      Decoder.read_event
          ⟨[] ++ Pollcatch.u32le 16 ++ Pollcatch.u32le 0x12345678 ++
            [0, 0, 0, 0, 0, 0, 0, 0], ([] : List Nat).length⟩ =
        .ok (some (.unknownEvent 0x12345678,
          ⟨[] ++ Pollcatch.u32le 16 ++ Pollcatch.u32le 0x12345678 ++
            [0, 0, 0, 0, 0, 0, 0, 0], ([] : List Nat).length + 16⟩))) := by
  refine ⟨by decide, ?_⟩
  exact (c6_unknown_kind [] [0, 0, 0, 0, 0, 0, 0, 0] 16 0x12345678
    (by decide) (by decide) (by decide) (by decide)).1 (by decide)

/-- On a list that is pairwise `R`-ordered, a predicate that is downward
closed along `R` holds only inside the `takeWhile` prefix: any member
satisfying it belongs to that prefix. -/
theorem List.mem_takeWhile_of_pairwise {α : Type} {R : α → α → Prop}
    {p : α → Bool} (anti : ∀ a b, R a b → p b = true → p a = true) :
    ∀ {l : List α}, l.Pairwise R → ∀ x ∈ l, p x = true → x ∈ l.takeWhile p := by
  intro l
  induction l with
  | nil => intro _ x hx; cases hx
  | cons a rest ih =>
    intro hp x hx hpx
    obtain ⟨ha, hrest⟩ := List.pairwise_cons.mp hp
    rcases List.mem_cons.mp hx with rfl | hx
    · simp [List.takeWhile_cons, hpx]
    · have hpa : p a = true := anti a x (ha x hx) hpx
      rw [List.takeWhile_cons, if_pos hpa]
      exact List.mem_cons_of_mem a (ih hrest x hx hpx)

/-- Claim C3: against a sorted index, the join locates the largest entry `I`
with `(I.tid, I.clock_start)` lexicographically at most `(tid, t)` (or finds
none), and returns the duration `t - I.clock_start` exactly when `I.tid = tid`,
`I.clock_start < t` and `t - I.clock_start < I.duration`, returning no
attribution otherwise — in particular an entry with `I.clock_start = t` never
claims the sample, since the inside test is strict. -/
theorem c3_join_characterization (pm : List Decoder.PollEventKey) (tid t : Int)
    (hsorted : pm.Pairwise Decoder.lexLe)
    (h0 : 0 ≤ tid) (h1 : tid < 2 ^ 32) (h2 : 0 ≤ t) :
    (∃ I, I ∈ pm ∧ Decoder.keyAtMost I tid.toNat t.toNat ∧
        (∀ J ∈ pm, Decoder.keyAtMost J tid.toNat t.toNat → Decoder.lexLe J I) ∧
        Decoder.find_delta_t_from_clock pm tid t =
          (if Decoder.insideInterval I tid.toNat t.toNat
           then some (t.toNat - I.clock_start) else none)) ∨
    ((∀ J ∈ pm, ¬ Decoder.keyAtMost J tid.toNat t.toNat) ∧
      Decoder.find_delta_t_from_clock pm tid t = none) := by
  simp only [Decoder.find_delta_t_from_clock, Decoder.partitionPoint,
    if_pos (⟨h0, h1, h2⟩ : 0 ≤ tid ∧ tid < 2 ^ 32 ∧ 0 ≤ t)]
  set tn := tid.toNat with htn
  set cs := t.toNat with hcs
  set pred : Decoder.PollEventKey → Bool :=
    fun x => decide (x.tid < tn) || tn == x.tid && decide (x.clock_start ≤ cs)
    with hpredd
  have hpred_iff : ∀ x, pred x = true ↔ Decoder.keyAtMost x tn cs := by
    intro x
    simp only [hpredd, Bool.or_eq_true, Bool.and_eq_true, decide_eq_true_eq,
      beq_iff_eq]
    unfold Decoder.keyAtMost
    omega
  have hanti : ∀ a b, Decoder.lexLe a b → pred b = true → pred a = true := by
    intro a b hab hb
    rw [hpred_iff] at *
    unfold Decoder.lexLe at hab
    unfold Decoder.keyAtMost at *
    omega
  set K := List.takeWhile pred pm with hKd
  have hKpfx : K <+: pm := List.takeWhile_prefix pred
  by_cases hzero : K.length = 0
  · refine Or.inr ⟨?_, ?_⟩
    · intro J hJ hkey
      have : J ∈ K :=
        List.mem_takeWhile_of_pairwise hanti hsorted J hJ ((hpred_iff J).mpr hkey)
      rw [List.length_eq_zero.mp hzero] at this
      cases this
    · rw [if_pos hzero]
  · obtain ⟨m, hm⟩ : ∃ m, K.length = m + 1 :=
      ⟨K.length - 1, by omega⟩
    have hmK : m < K.length := by omega
    have hmpm : m < pm.length := lt_of_lt_of_le hmK hKpfx.length_le
    have hKm : K[m] = pm[m] := hKpfx.getElem hmK
    set I := pm[m] with hIdef
    have hIK : I ∈ K := hKm ▸ List.getElem_mem hmK
    have hIpm : I ∈ pm := List.getElem_mem hmpm
    have hIpred : pred I = true := List.mem_takeWhile_imp hIK
    refine Or.inl ⟨I, hIpm, (hpred_iff I).mp hIpred, ?_, ?_⟩
    · intro J hJ hkey
      have hJK : J ∈ K :=
        List.mem_takeWhile_of_pairwise hanti hsorted J hJ ((hpred_iff J).mpr hkey)
      obtain ⟨j, hjK, hjJ⟩ := List.mem_iff_getElem.mp hJK
      have hjpm : j < pm.length := lt_of_lt_of_le hjK hKpfx.length_le
      have hJpm : pm[j] = J := by rw [← hKpfx.getElem hjK, hjJ]
      rcases Nat.lt_or_ge j m with hjm | hjm
      · have := List.pairwise_iff_getElem.mp hsorted j m hjpm hmpm hjm
        rw [hJpm] at this
        exact this
      · have hjeq : j = m := by omega
        subst hjeq
        rw [← hJpm, ← hIdef]
        unfold Decoder.lexLe
        omega
    · rw [if_neg (by omega : ¬ K.length = 0)]
      simp only [← hKd, hm, Nat.add_sub_cancel]
      rw [List.getD_eq_getElem pm ⟨0, 0, 0⟩ hmpm, ← hIdef]
      by_cases hin : Decoder.insideInterval I tn cs
      · rw [if_pos hin, if_pos]
        unfold Decoder.insideInterval at hin
        simp only [Bool.and_eq_true, decide_eq_true_eq, beq_iff_eq]
        omega
      · rw [if_neg hin, if_neg]
        unfold Decoder.insideInterval at hin
        simp only [Bool.and_eq_true, decide_eq_true_eq, beq_iff_eq]
        omega

/-- Claim C3, witness: the singleton index `[{tid 4, clock_start 10,
duration 5}]` against the sample `(4, 12)`. -/
theorem c3_join_characterization_witness :
    (∃ I, I ∈ [Decoder.PollEventKey.mk 4 10 5] ∧
        Decoder.keyAtMost I (4 : Int).toNat (12 : Int).toNat ∧
        (∀ J ∈ [Decoder.PollEventKey.mk 4 10 5],
          Decoder.keyAtMost J (4 : Int).toNat (12 : Int).toNat → Decoder.lexLe J I) ∧
        Decoder.find_delta_t_from_clock [Decoder.PollEventKey.mk 4 10 5] 4 12 =
          (if Decoder.insideInterval I (4 : Int).toNat (12 : Int).toNat
           then some ((12 : Int).toNat - I.clock_start) else none)) ∨
    ((∀ J ∈ [Decoder.PollEventKey.mk 4 10 5],
        ¬ Decoder.keyAtMost J (4 : Int).toNat (12 : Int).toNat) ∧
      Decoder.find_delta_t_from_clock [Decoder.PollEventKey.mk 4 10 5] 4 12 = none) :=
  c3_join_characterization [Decoder.PollEventKey.mk 4 10 5] 4 12
    (List.pairwise_singleton _ _) (by decide) (by decide) (by decide)

/-- Shifting the start index of an enumeration is the same as shifting the
index argument of the function consuming it. -/
theorem Decoder.filterMap_enumFrom_shift {β : Type}
    (f : Nat → Decoder.PossiblyUnknownEvent → Option β) :
    ∀ (l : List Decoder.PossiblyUnknownEvent) (n : Nat),
      (List.enumFrom (n + 1) l).filterMap (fun ie => f ie.1 ie.2) =
        (List.enumFrom n l).filterMap (fun ie => f (ie.1 + 1) ie.2) := by
  intro l
  induction l with
  | nil => intro n; rfl
  | cons a rest ih =>
    intro n
    rw [List.enumFrom_cons, List.enumFrom_cons, List.filterMap_cons, List.filterMap_cons]
    simp only []
    rw [ih (n + 1)]

/-- The calibration-state step of one event, as `latestCalibration` folds it. -/
theorem Decoder.latestCalibration_cons (c : Option Decoder.CalibrationData)
    (e : Decoder.PossiblyUnknownEvent) (l : List Decoder.PossiblyUnknownEvent) :
    Decoder.latestCalibration c (e :: l) =
      Decoder.latestCalibration
        (match e with
          | .event (.calibrateTscToMonotonic d) => some d
          | _ => c) l := by
  cases e with
  | unknownEvent k => rfl
  | event ev => cases ev <;> rfl

/-- Unfolding the specified reference-domain index on a cons cell: the head
event contributes its own entry (under the incoming calibration), and the
tail is indexed under the stepped calibration. -/
theorem Decoder.refEntriesFrom_cons (c : Option Decoder.CalibrationData)
    (e : Decoder.PossiblyUnknownEvent) (rest : List Decoder.PossiblyUnknownEvent) :
    Decoder.refEntriesFrom c (e :: rest) =
      (match e with
        | .event (.poll s en ce tid) =>
            (c.map fun cal => Decoder.refEntry cal s en ce tid).toList
        | _ => ([] : List Decoder.PollEventKey)) ++
        Decoder.refEntriesFrom
          (match e with
            | .event (.calibrateTscToMonotonic d) => some d
            | _ => c) rest := by
  unfold Decoder.refEntriesFrom
  rw [List.enum_cons, List.filterMap_cons]
  have htail :
      (List.enumFrom 1 rest).filterMap (fun ie =>
        match ie.2 with
        | .event (.poll start end_ clock_end tid) =>
            (Decoder.latestCalibration c ((e :: rest).take ie.1)).map fun cal =>
              Decoder.refEntry cal start end_ clock_end tid
        | _ => none) =
      rest.enum.filterMap (fun ie =>
        match ie.2 with
        | .event (.poll start end_ clock_end tid) =>
            (Decoder.latestCalibration
              (match e with
                | .event (.calibrateTscToMonotonic d) => some d
                | _ => c) (rest.take ie.1)).map fun cal =>
              Decoder.refEntry cal start end_ clock_end tid
        | _ => none) := by
    rw [show (1 : Nat) = 0 + 1 from rfl,
      Decoder.filterMap_enumFrom_shift
        (f := fun i ev =>
          match ev with
          | .event (.poll start end_ clock_end tid) =>
              (Decoder.latestCalibration c ((e :: rest).take i)).map fun cal =>
                Decoder.refEntry cal start end_ clock_end tid
          | _ => none) rest 0]
    apply List.filterMap_congr
    intro ie _
    cases ie with
    | mk i ev =>
      cases ev with
      | unknownEvent k => rfl
      | event ev' =>
        cases ev' with
        | calibrateTscToMonotonic d => rfl
        | poll s en ce tid =>
          simp only [List.take_succ_cons, Decoder.latestCalibration_cons]
  cases e with
  | unknownEvent k =>
    simp only []
    rw [htail]
    rfl
  | event ev =>
    cases ev with
    | poll s en ce tid =>
      simp only []
      rw [htail]
      cases c with
      | none => rfl
      | some cal =>
        simp [List.take_zero]
        rfl
    | calibrateTscToMonotonic d =>
      simp only []
      rw [htail]
      rfl

/-- The source-domain pass of `make_pr_map` ignores calibrations and maps
each Poll to `{tid, start, end - start}`. -/
theorem Decoder.make_pr_map_go_tsc :
    ∀ (events : List Decoder.PossiblyUnknownEvent) (c : Option Decoder.CalibrationData),
      Decoder.make_pr_map_go .tsc events c = Decoder.srcEntries events := by
  intro events
  induction events with
  | nil => intro c; rfl
  | cons e rest ih =>
    intro c
    cases e with
    | unknownEvent k =>
      show Decoder.make_pr_map_go .tsc rest c = _
      rw [ih c]
      unfold Decoder.srcEntries
      rw [List.filterMap_cons]
    | event ev =>
      cases ev with
      | calibrateTscToMonotonic d =>
        show Decoder.make_pr_map_go .tsc rest (some d) = _
        rw [ih (some d)]
        unfold Decoder.srcEntries
        rw [List.filterMap_cons]
      | poll s en ce tid =>
        show _ :: Decoder.make_pr_map_go .tsc rest c = _
        rw [ih c]
        unfold Decoder.srcEntries
        rw [List.filterMap_cons]

/-- The reference-domain pass of `make_pr_map` computes exactly the
specified reference-domain entries: each Poll is scaled with the most recent
calibration preceding it, and Polls before any calibration are dropped. -/
theorem Decoder.make_pr_map_go_monotonic :
    ∀ (events : List Decoder.PossiblyUnknownEvent) (c : Option Decoder.CalibrationData),
      Decoder.make_pr_map_go .monotonic events c = Decoder.refEntriesFrom c events := by
  intro events
  induction events with
  | nil => intro c; rfl
  | cons e rest ih =>
    intro c
    rw [Decoder.refEntriesFrom_cons]
    cases e with
    | unknownEvent k => simpa using ih c
    | event ev =>
      cases ev with
      | calibrateTscToMonotonic d => simpa using ih (some d)
      | poll s en ce tid =>
        cases c with
        | none => simpa using ih none
        | some cal =>
          show _ :: Decoder.make_pr_map_go .monotonic rest (some cal) = _
          rw [ih (some cal)]
          rfl

/-- The derived order on `PollEventKey` is transitive. -/
theorem Decoder.keyLe_trans (a b c : Decoder.PollEventKey)
    (hab : Decoder.PollEventKey.keyLe a b = true)
    (hbc : Decoder.PollEventKey.keyLe b c = true) :
    Decoder.PollEventKey.keyLe a c = true := by
  simp only [Decoder.PollEventKey.keyLe, Bool.or_eq_true, Bool.and_eq_true,
    decide_eq_true_eq, beq_iff_eq] at *
  omega

/-- The derived order on `PollEventKey` is total. -/
theorem Decoder.keyLe_total (a b : Decoder.PollEventKey) :
    (Decoder.PollEventKey.keyLe a b || Decoder.PollEventKey.keyLe b a) = true := by
  simp only [Decoder.PollEventKey.keyLe, Bool.or_eq_true, Bool.and_eq_true,
    decide_eq_true_eq, beq_iff_eq]
  omega

/-- The derived three-component order refines the `(tid, clock_start)`
lexicographic order. -/
theorem Decoder.keyLe_imp_lexLe (a b : Decoder.PollEventKey)
    (h : Decoder.PollEventKey.keyLe a b = true) : Decoder.lexLe a b := by
  simp only [Decoder.PollEventKey.keyLe, Bool.or_eq_true, Bool.and_eq_true,
    decide_eq_true_eq, beq_iff_eq] at h
  unfold Decoder.lexLe
  omega

/-- Claim C4: the decoder's index build yields, in the source domain, one
entry `{tid, start, end - start}` per Poll event and, in the reference
domain, one entry `{tid, clock_end - scale(end - start), scale(end - start)}`
per Poll event scaled with the most recent preceding calibration, dropping
Polls seen before any calibration; both indices are sorted lexicographically
by `(tid, clock_start)`. -/
theorem c4_index_build (events : List Decoder.PossiblyUnknownEvent) :
    (Decoder.make_pr_map events .tsc).Perm (Decoder.srcEntries events) ∧
    (Decoder.make_pr_map events .monotonic).Perm (Decoder.refEntries events) ∧
    (Decoder.make_pr_map events .tsc).Pairwise Decoder.lexLe ∧
    (Decoder.make_pr_map events .monotonic).Pairwise Decoder.lexLe := by
  refine ⟨?_, ?_, ?_, ?_⟩
  · unfold Decoder.make_pr_map
    rw [Decoder.make_pr_map_go_tsc events none]
    exact List.mergeSort_perm _ _
  · unfold Decoder.make_pr_map
    rw [Decoder.make_pr_map_go_monotonic events none]
    exact List.mergeSort_perm _ _
  · exact (List.sorted_mergeSort Decoder.keyLe_trans Decoder.keyLe_total _).imp
      fun h => Decoder.keyLe_imp_lexLe _ _ h
  · exact (List.sorted_mergeSort Decoder.keyLe_trans Decoder.keyLe_total _).imp
      fun h => Decoder.keyLe_imp_lexLe _ _ h

/-- With a reference clock stuck at 0 the busy-wait loop never reaches its
target, whatever the fuel. -/
theorem Pollcatch.busyWait_zero_ref :
    ∀ (fuel kr last target : Nat), last < target →
      Pollcatch.busyWait (fun _ => 0) kr last target fuel = none := by
  intro fuel
  induction fuel with
  | zero => intro kr last target _; rfl
  | succ n ih =>
    intro kr last target h
    unfold Pollcatch.busyWait
    rw [if_pos h]
    exact ih _ _ _ (by omega)

/-- Claim C5: the code diverges.  If every reference-clock reading is 0 (the
`nanotime` error value), `calibrate` never terminates: for every fuel bound
the fueled model runs out inside the first busy-wait loop. -/
theorem c5_calibrate_diverges (c0 : Pollcatch.Calibration) (source : Nat → Nat)
    (fuel : Nat) :
    Pollcatch.Calibration.calibrate c0 (fun _ => 0) source fuel = none := by
  unfold Pollcatch.Calibration.calibrate
  cases fuel with
  | zero => rfl
  | succ n =>
    unfold Pollcatch.calibrateLoop
    have hb := Pollcatch.busyWait_zero_ref n (2 + 1) 0 (0 + 1000) (by omega)
    simp only [hb]

/-- Claim C8, counterexample: with epochs 0, `mul = 2`, `shift = 0` the
`u64` truncation wraps at `x = 2 ^ 63 - 1 ≤ y = 2 ^ 63`, so the conversion
is not monotone for every calibration value. -/
theorem c8_cex :
    (2 ^ 63 - 1 : Nat) ≤ 2 ^ 63 ∧
      ¬ (Pollcatch.Calibration.mk 0 0 2 0).scale_src_to_ref (2 ^ 63 - 1) ≤
          (Pollcatch.Calibration.mk 0 0 2 0).scale_src_to_ref (2 ^ 63) := by
  constructor
  · decide
  · intro h
    have h1 : (Pollcatch.Calibration.mk 0 0 2 0).scale_src_to_ref (2 ^ 63 - 1) =
        2 ^ 64 - 2 := by decide
    have h2 : (Pollcatch.Calibration.mk 0 0 2 0).scale_src_to_ref (2 ^ 63) = 0 := by decide
    omega

/-- Claim C8, amended: for `x ≤ y` the conversion satisfies
`scale_src_to_ref x ≤ scale_src_to_ref y` whenever the scaled value of the
larger input plus the reference epoch still fits in a `u64`, so that neither
the truncation in `mul_div_po2_u64` nor the final addition wraps. -/
theorem c8_monotone (c : Pollcatch.Calibration) (x y : Nat) (hxy : x ≤ y)
    (hfit : (y - c.src_time) * c.scale_factor / 2 ^ (c.scale_shift % 128) +
        c.ref_time < 2 ^ 64) :
    c.scale_src_to_ref x ≤ c.scale_src_to_ref y := by
  simp only [Pollcatch.Calibration.scale_src_to_ref, Pollcatch.mul_div_po2_u64]
  have hdle : x - c.src_time ≤ y - c.src_time := by omega
  have hmle : (x - c.src_time) * c.scale_factor ≤ (y - c.src_time) * c.scale_factor :=
    Nat.mul_le_mul_right _ hdle
  have hqle : (x - c.src_time) * c.scale_factor / 2 ^ (c.scale_shift % 128) ≤
      (y - c.src_time) * c.scale_factor / 2 ^ (c.scale_shift % 128) :=
    Nat.div_le_div_right hmle
  have hylt : (y - c.src_time) * c.scale_factor / 2 ^ (c.scale_shift % 128) < 2 ^ 64 := by
    omega
  have hxlt : (x - c.src_time) * c.scale_factor / 2 ^ (c.scale_shift % 128) < 2 ^ 64 := by
    omega
  rw [Nat.mod_eq_of_lt hxlt, Nat.mod_eq_of_lt hylt]
  have : (x - c.src_time) * c.scale_factor / 2 ^ (c.scale_shift % 128) + c.ref_time <
      2 ^ 64 := by omega
  rw [Nat.mod_eq_of_lt this, Nat.mod_eq_of_lt hfit]
  omega

/-- Claim C8, witness: a small in-range calibration and inputs `3 ≤ 5`. -/
theorem c8_monotone_witness :
    (3 : Nat) ≤ 5 ∧
      (5 - (Pollcatch.Calibration.mk 7 1 2 0).src_time) *
          (Pollcatch.Calibration.mk 7 1 2 0).scale_factor /
          2 ^ ((Pollcatch.Calibration.mk 7 1 2 0).scale_shift % 128) +
          (Pollcatch.Calibration.mk 7 1 2 0).ref_time < 2 ^ 64 ∧
      (Pollcatch.Calibration.mk 7 1 2 0).scale_src_to_ref 3 ≤
        (Pollcatch.Calibration.mk 7 1 2 0).scale_src_to_ref 5 :=
  ⟨by decide, by decide,
    c8_monotone (Pollcatch.Calibration.mk 7 1 2 0) 3 5 (by decide) (by decide)⟩

/-- Claim C9: the task wrapper reads the source clock into `before`, stores
0 into the per-thread slot, runs the body, and afterwards sends a Poll event
carrying `start = before` and the thread's tid exactly when the slot then
holds 1; when the slot is not 1 the state — the event log included — is left
exactly as the body left it. -/
theorem c9_wrapper {α : Type} (st0 stMid : Pollcatch.ProbeState)
    (body : Pollcatch.ProbeState → Pollcatch.ProbeState × α) (r : α)
    (hbody : body (Pollcatch.write_timestamp_pthread_key 0 (Pollcatch.tscNow st0).2) =
      (stMid, r)) :
    (st0.key_init = true →
      (Pollcatch.write_timestamp_pthread_key 0 (Pollcatch.tscNow st0).2).slot = 0) ∧
    (Pollcatch.read_timestamp_pthread_key stMid ≠ 1 →
      (Pollcatch.timestamping body st0).1 = stMid) ∧
    (∀ sent, stMid.writer = some sent →
      (Pollcatch.timestamping body st0).1.writer =
        some (if Pollcatch.read_timestamp_pthread_key stMid = 1
          then sent ++ [Pollcatch.Event.poll (Pollcatch.tscNow st0).1
              (Pollcatch.tscNow (Pollcatch.nanotimeCall stMid).2).1
              (Pollcatch.nanotimeCall stMid).1 stMid.tid]
          else sent)) := by
  refine ⟨?_, ?_, ?_⟩
  · intro hk
    simp [Pollcatch.write_timestamp_pthread_key, Pollcatch.tscNow, hk]
  · intro hne
    unfold Pollcatch.timestamping
    rcases hts : Pollcatch.tscNow st0 with ⟨before, st1⟩
    rw [hts] at hbody
    simp only [] at hbody ⊢
    rw [hbody]
    simp only [if_neg hne]
  · intro sent hsent
    unfold Pollcatch.timestamping
    rcases hts : Pollcatch.tscNow st0 with ⟨before, st1⟩
    rw [hts] at hbody
    simp only [] at hbody ⊢
    rw [hbody]
    by_cases hread : Pollcatch.read_timestamp_pthread_key stMid = 1
    · simp only [if_pos hread]
      unfold Pollcatch.write_timestamp
      rw [hsent]
    · simp only [if_neg hread]
      rw [hsent]

/-- Claim C9, witness: a body that writes 1 into the slot (the signal
handler firing) makes the wrapper emit `Poll {start 5, end 6, clock_end 7,
tid 9}`. -/
theorem c9_wrapper_witness :
    (Pollcatch.timestamping
        (fun st => (Pollcatch.write_timestamp_pthread_key 1 st, (0 : Nat)))
        (Pollcatch.ProbeState.mk true 42 (some []) [5, 6] [7] 9)).1.writer =
      some [Pollcatch.Event.poll 5 6 7 9] := by
  have h := c9_wrapper (Pollcatch.ProbeState.mk true 42 (some []) [5, 6] [7] 9)
    (Pollcatch.ProbeState.mk true 1 (some []) [6] [7] 9)
    (fun st => (Pollcatch.write_timestamp_pthread_key 1 st, (0 : Nat))) 0 rfl
  have h3 := h.2.2 [] rfl
  simpa [Pollcatch.read_timestamp_pthread_key, Pollcatch.nanotimeCall,
    Pollcatch.tscNow] using h3
